import Mathlib

/-!
Verification of the PA1010D GPS driver protocol layer.

The development shallowly embeds the driver's pure protocol logic:
bytes are naturals, byte strings are lists of naturals, wall-clock
times are rationals, and each bus interaction is represented by the
sequence of bytes read or written.  The external NMEA parser
(pynmea2) is an out-of-repository collaborator and is modelled from
the spec as an abstract function producing tagged parse results.
-/

/-- Uppercase hexadecimal digit byte for a value below 16, as produced by
the X format code in Python. -/
def hexDigit (n : Nat) : Nat := if n < 10 then 48 + n else 55 + n

/-- Embeds the Python format string for a checksum: minimal uppercase
hexadecimal digits of the value, zero-padded on the left to width two. -/
def format02X (x : Nat) : List Nat :=
  let ds := (Nat.toDigits 16 x).map (fun c => c.toUpper.toNat)
  List.replicate (2 - ds.length) 48 ++ ds

/-- Normalization performed by send_command: one leading 36 (the dollar
byte) is dropped, then one trailing 42 (the star byte) is dropped. -/
def normalizeCmd (c : List Nat) : List Nat :=
  let c1 := if c.head? = some 36 then c.tail else c
  if c1.getLast? = some 42 then c1.dropLast else c1

/-- XOR fold of a byte list, as computed by the checksum loop of
send_command. -/
def xorFold (c : List Nat) : Nat := c.foldl (fun a b => a ^^^ b) 0

/-- Wire bytes produced by PA1010D.send_command: normalizes the command,
prepends the dollar byte, optionally appends the star byte and the two
checksum digits, and appends CR LF.  The byte list returned is exactly the
sequence of single-byte bus writes performed by the internal write
helper. -/
def send_command (command : List Nat) (add_checksum : Bool) : List Nat :=
  let c := normalizeCmd command
  let base := [36] ++ c
  let withCk :=
    if add_checksum then base ++ [42] ++ format02X (xorFold c) else base
  withCk ++ [13, 10]

/-- Encoding of a Lean string to ascii bytes, mirroring the encode call at
the top of send_command for string-typed commands. -/
def encodeAscii (s : String) : List Nat := s.data.map Char.toNat

/-- String-typed entry point of send_command: the command is ascii-encoded
first, then handled exactly like a byte command. -/
def send_command_str (s : String) (add_checksum : Bool) : List Nat :=
  send_command (encodeAscii s) add_checksum

/-- Normalization as worded by the spec: drops one leading dollar and one
trailing star from the payload. -/
def specNormalize (c : List Nat) : List Nat :=
  let c1 := if c.head? = some 36 then c.tail else c
  if c1.getLast? = some 42 then c1.dropLast else c1

/-- Checksum rendering as worded by the spec: the XOR fold rendered as two
uppercase zero-padded hexadecimal digits. -/
def specHex2 (x : Nat) : List Nat := [hexDigit (x / 16), hexDigit (x % 16)]

/-- Wire image demanded by the spec with the checksum flag on. -/
def specWireChk (cmd : List Nat) : List Nat :=
  [36] ++ specNormalize cmd ++ [42] ++ specHex2 (xorFold (specNormalize cmd)) ++ [13, 10]

/-- Wire image demanded by the spec with the checksum flag off. -/
def specWirePlain (cmd : List Nat) : List Nat :=
  [36] ++ specNormalize cmd ++ [13, 10]

/-- Python str whitespace test restricted to the ascii range, as consulted
by the strip call on a decoded sentence. -/
def isPyWs (b : Nat) : Bool :=
  b == 9 || b == 10 || b == 11 || b == 12 || b == 13 ||
  b == 28 || b == 29 || b == 30 || b == 31 || b == 32

/-- Right strip of Python whitespace. -/
def rstripWs (l : List Nat) : List Nat := (l.reverse.dropWhile isPyWs).reverse

/-- Both-ends strip, as performed by the strip call. -/
def pyStrip (l : List Nat) : List Nat :=
  ((l.dropWhile isPyWs).reverse.dropWhile isPyWs).reverse

/-- Removal of every bare line feed, as performed by the replace call. -/
def removeNl (l : List Nat) : List Nat := l.filter (fun b => b != 10)

/-- Ascii decoding of a byte list. -/
def listToString (l : List Nat) : String := String.mk (l.map Char.ofNat)

/-- Decoded return value of read_sentence for a finished buffer: decode,
strip both ends, and drop embedded line feeds. -/
def pyDecode (l : List Nat) : String := listToString (removeNl (pyStrip l))

/-- Last two elements of the buffer, as selected by the negative slice in
the end-of-line test of read_sentence. -/
def lastTwo (l : List Nat) : List Nat := l.drop (l.length - 2)

inductive ReadOutcome where
  | line (s : String)
  | timeout
  | exhausted
deriving DecidableEq

/-- Loop body of read_sentence over a stream of timed byte reads: each
element carries the wall-clock value observed at the loop head and the
byte then read from register zero.  Bytes before the first dollar are
skipped while the buffer is empty; once the last two buffered bytes are CR
LF the decoded line is returned; when the clock reaches the deadline the
call fails with TimeoutError.  The exhausted outcome covers streams too
short to decide the call. -/
def readLoop (deadline : ℚ) (buf : List Nat) : List (ℚ × Nat) → ReadOutcome
  | [] => .exhausted
  | (now, c) :: rest =>
    if now < deadline then
      if buf = [] ∧ c ≠ 36 then readLoop deadline buf rest
      else
        let buf' := buf ++ [c]
        if lastTwo buf' = [13, 10] then .line (pyDecode buf')
        else readLoop deadline buf' rest
    else .timeout

/-- PA1010D.read_sentence: the deadline is the timeout argument plus the
clock value at entry. -/
def read_sentence (timeout startTime : ℚ) (stream : List (ℚ × Nat)) : ReadOutcome :=
  readLoop (timeout + startTime) [] stream

/-- Adjacent CR LF pair detector over sentence bytes. -/
def hasCrLf : List Nat → Bool
  | [] => false
  | [_] => false
  | a :: b :: rest => (a == 13 && b == 10) || hasCrLf (b :: rest)

structure FixState where
  timestamp : Option Int
  latitude : Option Int
  longitude : Option Int
  altitude : Option Int
  num_sats : Option Int
  gps_qual : Option Int
  speed_over_ground : Option Int
  mode_fix_type : Option Int
  pdop : Option Int
  hdop : Option Int
  vdop : Option Int
deriving DecidableEq

/-- Initial fix state: every slot starts as None in the constructor. -/
def initFix : FixState :=
  ⟨none, none, none, none, none, none, none, none, none, none, none⟩

/-- Modelled from the spec: the parsed GGA record exposed by the external
pynmea2 collaborator (time, position, altitude, satellite count and fix
quality, the last of which is absent when the sentence carries no
value). -/
structure GGAData where
  timestamp : Int
  latitude : Int
  longitude : Int
  altitude : Int
  num_sats : Int
  gps_qual : Option Int
deriving DecidableEq

/-- Modelled from the spec: the parsed GSA record exposed by pynmea2. -/
structure GSAData where
  mode_fix_type : Int
  pdop : Int
  hdop : Int
  vdop : Int
deriving DecidableEq

/-- Modelled from the spec: the tagged parse result produced by the
external parser, one tag per sentence class that update compares against;
the other tag carries the textual type name of any unrecognized class. -/
inductive Parsed where
  | gga (d : GGAData)
  | gll
  | gsa (d : GSAData)
  | rmc (spd : Int)
  | vtg
  | gsv
  | proprietary
  | other (tyName : String)
deriving DecidableEq

/-- Type tag of a parse result, as rendered into the Unsupported error
message. -/
def kindName : Parsed → String
  | .gga _ => "GGA"
  | .gll => "GLL"
  | .gsa _ => "GSA"
  | .rmc _ => "RMC"
  | .vtg => "VTG"
  | .gsv => "GSV"
  | .proprietary => "ProprietarySentence"
  | .other ty => ty

/-- Message kind against which the wait_for argument is compared in the
branch of update handling the tag, for the branches that have such a
comparison (the GLL, proprietary, and fallback branches have none). -/
def matchKind : Parsed → Option String
  | .gga _ => some "GGA"
  | .gsa _ => some "GSA"
  | .rmc _ => some "RMC"
  | .vtg => some "VTG"
  | .gsv => some "GSV"
  | _ => none

/-- State mutation performed by the branch of update handling each parse
result: a GGA with absent quality zeroes the satellite count and quality,
a GGA with a quality value writes all six of its fields, a GSA writes its
four, an RMC writes speed over ground, and every other kind leaves the
state alone. -/
def dispatchState (st : FixState) : Parsed → FixState
  | .gga d =>
    match d.gps_qual with
    | none => { st with num_sats := some 0, gps_qual := some 0 }
    | some q =>
      { st with timestamp := some d.timestamp, latitude := some d.latitude,
                longitude := some d.longitude, altitude := some d.altitude,
                num_sats := some d.num_sats, gps_qual := some q }
  | .gsa d =>
    { st with mode_fix_type := some d.mode_fix_type, pdop := some d.pdop,
              hdop := some d.hdop, vdop := some d.vdop }
  | .rmc spd => { st with speed_over_ground := some spd }
  | _ => st

inductive StepResult where
  | success (ret : Bool) (st : FixState)
  | more (st : FixState)
  | unsupported (tyName raw : String) (st : FixState)
deriving DecidableEq

/-- Modelled from the spec: the optional proprietary MTK message classes of
the parser library; the attribute lookup fails on parser builds without
native MTK support, and yields the two class tags otherwise. -/
def mtkTypesLookup : Bool → Except String (List String)
  | true => .ok ["MTK011", "MTK010"]
  | false => .error "AttributeError"

/-- Fallback taken by update when no primary branch matched: if the MTK
class lookup succeeds and the type tag is one of the two MTK classes the
call succeeds; otherwise — including when the lookup itself fails and that
failure is swallowed — the sentence is unsupported and the error names the
type tag and the raw line. -/
def fallback (avail : Bool) (ty raw : String) (st : FixState) : StepResult :=
  match mtkTypesLookup avail with
  | .ok tys => if ty ∈ tys then .success true st else .unsupported ty raw st
  | .error _ => .unsupported ty raw st

/-- One dispatch step of update on a parsed sentence: fold the sentence
into the state, then return success when the branch's wait_for comparison
(or the unconditional proprietary branch) fires, keep looping otherwise,
and fall back to the MTK check for unrecognized tags. -/
def dispatch (avail : Bool) (w : String) (st : FixState) (raw : String)
    (p : Parsed) : StepResult :=
  let st' := dispatchState st p
  match p with
  | .gga _ => if w = "GGA" then .success true st' else .more st'
  | .gll => .more st'
  | .gsa _ => if w = "GSA" then .success true st' else .more st'
  | .rmc _ => if w = "RMC" then .success true st' else .more st'
  | .vtg => if w = "VTG" then .success true st' else .more st'
  | .gsv => if w = "GSV" then .success true st' else .more st'
  | .proprietary => .success true st'
  | .other ty => fallback avail ty raw st'

/-- State carried by a dispatch step result. -/
def stepState : StepResult → FixState
  | .success _ s => s
  | .more s => s
  | .unsupported _ _ s => s

/-- Whether a parse result can make update return success for the given
wait_for, independent of the current state. -/
def canSucceed (avail : Bool) (w : String) : Parsed → Bool
  | .gga _ => decide (w = "GGA")
  | .gll => false
  | .gsa _ => decide (w = "GSA")
  | .rmc _ => decide (w = "RMC")
  | .vtg => decide (w = "VTG")
  | .gsv => decide (w = "GSV")
  | .proprietary => true
  | .other ty => avail && decide (ty ∈ ["MTK011", "MTK010"])

structure Iter where
  now : ℚ
  read : Option String
deriving DecidableEq

inductive UpdateOutcome where
  | success (ret : Bool) (st : FixState)
  | timeoutErr (failTime : ℚ) (waited : String)
  | unsupportedErr (tyName raw : String) (st : FixState)
  | exhausted (st : FixState)
deriving DecidableEq

/-- Loop of PA1010D.update over a stream of timed read attempts: each
element carries the wall-clock value at the loop head together with the
outcome of the inner read_sentence call (none when that call raised
TimeoutError, which the loop swallows).  A line is handed to the external
parser; parse errors are skipped, otherwise the sentence is dispatched.
When the clock reaches the deadline the call raises TimeoutError carrying
the awaited kind.  The exhausted outcome covers streams too short to
decide the call. -/
def updateLoop (avail : Bool) (parse : String → Option Parsed) (w : String)
    (deadline : ℚ) (st : FixState) : List Iter → UpdateOutcome
  | [] => .exhausted st
  | it :: rest =>
    if it.now < deadline then
      match it.read with
      | none => updateLoop avail parse w deadline st rest
      | some line =>
        match parse line with
        | none => updateLoop avail parse w deadline st rest
        | some p =>
          match dispatch avail w st line p with
          | .success b st' => .success b st'
          | .more st' => updateLoop avail parse w deadline st' rest
          | .unsupported ty raw st' => .unsupportedErr ty raw st'
    else .timeoutErr it.now w

/-- PA1010D.update: the deadline is the timeout argument plus the clock
value at entry. -/
def update (avail : Bool) (parse : String → Option Parsed) (w : String)
    (timeout startTime : ℚ) (st : FixState) (iters : List Iter) : UpdateOutcome :=
  updateLoop avail parse w (timeout + startTime) st iters

/-- Concrete parse table standing in for the abstract parser inside
witnesses and counterexamples. -/
def parseTable : String → Option Parsed := fun line =>
  if line = "L1" then some (Parsed.gga ⟨1, 2, 3, 4, 8, some 1⟩)
  else if line = "L0" then some (Parsed.gga ⟨0, 0, 0, 0, 0, none⟩)
  else if line = "GLL1" then some Parsed.gll
  else if line = "P1" then some Parsed.proprietary
  else if line = "Z1" then some (Parsed.other "ZDA")
  else none

/-- Fully populated fix state used in counterexamples. -/
def sampleFix : FixState :=
  ⟨some 10, some 11, some 12, some 13, some 14, some 15, some 16, some 17,
   some 18, some 19, some 20⟩

/-- GGA record whose quality value is present and equal to zero. -/
def ggaQualZero : GGAData := ⟨101, 102, 103, 104, 5, some 0⟩

/-- GGA record with absent quality. -/
def ggaNoFix : GGAData := ⟨0, 0, 0, 0, 0, none⟩

/-- Available states for the PA1010D PPS LED, each with the fixed integer
used verbatim in the outbound command payload. -/
inductive PPS where
  | DISABLE
  | AFTER_FIRST_FIX
  | ONLY_3D
  | ONLY_2D_3D
  | ALWAYS
deriving DecidableEq

/-- Integer value of a PPS mode. -/
def PPS.value : PPS → Nat
  | .DISABLE => 0
  | .AFTER_FIRST_FIX => 1
  | .ONLY_3D => 2
  | .ONLY_2D_3D => 3
  | .ALWAYS => 4

/-- Modelled from the spec: a dynamically typed Python argument, either an
actual PPS member or a value of some other type. -/
inductive PyVal where
  | pps (m : PPS)
  | other (descr : String)
deriving DecidableEq

inductive SetPpsResult where
  | rejected (msg : String)
  | sent (wire : List Nat)
deriving DecidableEq

/-- PA1010D.set_pps: a non-PPS mode argument is rejected with ValueError
before any bus write; a PPS mode builds the PMTK285 payload from the mode
integer and the pulse width and delegates to send_command with the
checksum enabled. -/
def set_pps (mode : PyVal) (pulse_width : Int) : SetPpsResult :=
  match mode with
  | .other _ => .rejected "Mode must be of type PPS"
  | .pps m =>
    .sent (send_command
      (encodeAscii ("PMTK285," ++ toString m.value ++ "," ++ toString pulse_width))
      true)

/-- Sample payload pinned by the spec's checksum test. -/
def cmdSample : List Nat := [80, 77, 84, 75, 50, 56, 53, 44, 52, 44, 49, 48, 48]

set_option maxRecDepth 4096 in
set_option maxHeartbeats 1000000 in
theorem fmt_eq_specHex2 : ∀ x, x < 256 → format02X x = specHex2 x := by decide

theorem xor_lt_256 {a b : Nat} (ha : a < 256) (hb : b < 256) : a ^^^ b < 256 := by
  have e : (256 : Nat) = 2 ^ 8 := by norm_num
  rw [e] at ha hb ⊢
  exact Nat.bitwise_lt ha hb

theorem foldl_xor_lt (l : List Nat) :
    ∀ acc, acc < 256 → (∀ b ∈ l, b < 256) →
      l.foldl (fun a b => a ^^^ b) acc < 256 := by
  induction l with
  | nil => intro acc hacc _; simpa using hacc
  | cons hd tl ih =>
    intro acc hacc hmem
    simp only [List.foldl_cons]
    exact ih _ (xor_lt_256 hacc (hmem hd (by simp))) (fun b hb => hmem b (by simp [hb]))

theorem xorFold_lt (l : List Nat) (h : ∀ b ∈ l, b < 256) : xorFold l < 256 :=
  foldl_xor_lt l 0 (by norm_num) h

theorem normalizeCmd_sublist (c : List Nat) : (normalizeCmd c).Sublist c := by
  have h2 : ∀ x : List Nat, x.Sublist c →
      (if x.getLast? = some 42 then x.dropLast else x).Sublist c := by
    intro x hx
    split
    · exact (List.dropLast_sublist _).trans hx
    · exact hx
  show (if (if c.head? = some 36 then c.tail else c).getLast? = some 42
        then (if c.head? = some 36 then c.tail else c).dropLast
        else (if c.head? = some 36 then c.tail else c)).Sublist c
  apply h2
  split
  · exact List.tail_sublist c
  · exact List.Sublist.refl c

/-- C1: for every byte command whose bytes are in range (and for every
string command encoding to those bytes), send_command with the checksum
flag writes the dollar byte, the normalized payload, the star byte, the
two uppercase zero-padded hex digits of the XOR fold of the normalized
payload, and CR LF; without the flag it writes the dollar byte, the
normalized payload and CR LF. -/
theorem c1_send_command_wire (cmd : List Nat) (hb : ∀ b ∈ cmd, b < 256) :
    send_command cmd true = specWireChk cmd ∧
    send_command cmd false = specWirePlain cmd ∧
    ∀ s : String, encodeAscii s = cmd →
      send_command_str s true = specWireChk cmd ∧
      send_command_str s false = specWirePlain cmd := by
  have hn : ∀ b ∈ normalizeCmd cmd, b < 256 :=
    fun b hb' => hb b ((normalizeCmd_sublist cmd).subset hb')
  have hx : xorFold (normalizeCmd cmd) < 256 := xorFold_lt _ hn
  have hfmt : format02X (xorFold (normalizeCmd cmd)) = specHex2 (xorFold (normalizeCmd cmd)) :=
    fmt_eq_specHex2 _ hx
  have hnn : specNormalize cmd = normalizeCmd cmd := rfl
  have hA : send_command cmd true = specWireChk cmd := by
    simp [send_command, specWireChk, hnn, hfmt]
  have hB : send_command cmd false = specWirePlain cmd := by
    simp [send_command, specWirePlain, hnn]
  refine ⟨hA, hB, ?_⟩
  intro s hs
  constructor
  · show send_command (encodeAscii s) true = specWireChk cmd
    rw [hs, hA]
  · show send_command (encodeAscii s) false = specWirePlain cmd
    rw [hs, hB]

theorem c1_witness :
    (∀ b ∈ cmdSample, b < 256) ∧
    (send_command cmdSample true = specWireChk cmdSample ∧
     send_command cmdSample false = specWirePlain cmdSample ∧
     ∀ s : String, encodeAscii s = cmdSample →
       send_command_str s true = specWireChk cmdSample ∧
       send_command_str s false = specWirePlain cmdSample) :=
  ⟨by decide, c1_send_command_wire cmdSample (by decide)⟩

/-- C3 counterexample: re-encoding the fully wrapped form of the sample
payload — dollar, payload, star, checksum digits — does not reproduce the
wire bytes of the bare payload, because normalization strips only a
trailing star, and the wrapped form ends in a hex digit instead. -/
theorem c3_cex :
    send_command ([36] ++ cmdSample ++ [42] ++ specHex2 (xorFold cmdSample)) true ≠
      send_command cmdSample true := by decide

/-- C3 as amended: idempotence holds for delimiter-only wrapping: for a
payload with no leading dollar and no trailing star, send_command applied
to the dollar-payload-star form writes the same bytes as send_command
applied to the bare payload, for either checksum flag.  It does not extend
to input already carrying the two checksum digits. -/
theorem c3_wrap_unwrap (p : List Nat) (b : Bool)
    (h1 : p.head? ≠ some 36) (h2 : p.getLast? ≠ some 42) :
    send_command ([36] ++ p ++ [42]) b = send_command p b := by
  have e : normalizeCmd (36 :: (p ++ [42])) = p := by
    unfold normalizeCmd
    simp [List.getLast?_concat]
  have e2 : normalizeCmd p = p := by
    unfold normalizeCmd
    simp [h1, h2]
  simp only [send_command, List.cons_append, List.nil_append]
  rw [e, e2]

theorem c3_witness :
    ([65] : List Nat).head? ≠ some 36 ∧ ([65] : List Nat).getLast? ≠ some 42 ∧
    send_command ([36] ++ [65] ++ [42]) true = send_command [65] true :=
  ⟨by decide, by decide, c3_wrap_unwrap [65] true (by decide) (by decide)⟩

theorem readLoop_cons (dl : ℚ) (buf : List Nat) (t : ℚ) (c : Nat)
    (rest : List (ℚ × Nat)) :
    readLoop dl buf ((t, c) :: rest) =
      if t < dl then
        if buf = [] ∧ c ≠ 36 then readLoop dl buf rest
        else if lastTwo (buf ++ [c]) = [13, 10] then
          ReadOutcome.line (pyDecode (buf ++ [c]))
        else readLoop dl (buf ++ [c]) rest
      else ReadOutcome.timeout := rfl

theorem hasCrLf_append_crlf (xs ys : List Nat) :
    hasCrLf (xs ++ 13 :: 10 :: ys) = true := by
  induction xs with
  | nil => simp [hasCrLf]
  | cons a xs ih =>
    cases xs with
    | nil => simp [hasCrLf]
    | cons b xs2 =>
      simp only [List.cons_append] at ih ⊢
      simp [hasCrLf, ih]

theorem hasCrLf_cons_of_ne (a : Nat) (l : List Nat) (h : a ≠ 13) :
    hasCrLf (a :: l) = hasCrLf l := by
  cases l with
  | nil => simp [hasCrLf]
  | cons b l2 => simp [hasCrLf, h]

theorem lastTwo_concat_pair (xs : List Nat) (a b : Nat) :
    lastTwo (xs ++ [a, b]) = [a, b] := by
  unfold lastTwo
  have hlen : (xs ++ [a, b]).length - 2 = xs.length := by simp
  rw [hlen]
  exact List.drop_left xs [a, b]

theorem lastTwo_concat_ne (xs : List Nat) (hx : xs ≠ []) (a : Nat) (ha : a ≠ 10) :
    lastTwo (xs ++ [a]) ≠ [13, 10] := by
  rcases List.eq_nil_or_concat xs with rfl | ⟨ys, b, rfl⟩
  · exact absurd rfl hx
  · simp only [List.concat_eq_append, List.append_assoc, List.cons_append,
      List.nil_append]
    rw [lastTwo_concat_pair]
    intro h
    have hab : b = 13 ∧ a = 10 := by simpa using h
    exact ha hab.2

theorem lastTwo_within (buf : List Nat) (hb : buf ≠ []) (c : Nat) (tl : List Nat)
    (hno : hasCrLf (buf ++ c :: tl) = false) :
    lastTwo (buf ++ [c]) ≠ [13, 10] := by
  rcases List.eq_nil_or_concat buf with rfl | ⟨ys, b, rfl⟩
  · exact absurd rfl hb
  · simp only [List.concat_eq_append, List.append_assoc, List.cons_append,
      List.nil_append] at hno ⊢
    rw [lastTwo_concat_pair]
    intro h
    have hab : b = 13 ∧ c = 10 := by simpa using h
    rw [hab.1, hab.2] at hno
    rw [hasCrLf_append_crlf] at hno
    exact Bool.noConfusion hno

theorem readLoop_skip (dl : ℚ) (gs : List (ℚ × Nat)) :
    ∀ rest, (∀ p ∈ gs, p.2 ≠ 36) → (∀ p ∈ gs, p.1 < dl) →
      readLoop dl [] (gs ++ rest) = readLoop dl [] rest := by
  induction gs with
  | nil => intro rest _ _; rfl
  | cons g gs ih =>
    intro rest h36 ht
    obtain ⟨t, c⟩ := g
    rw [List.cons_append, readLoop_cons]
    rw [if_pos (ht (t, c) (List.mem_cons_self _ _))]
    rw [if_pos ⟨rfl, h36 (t, c) (List.mem_cons_self _ _)⟩]
    exact ih rest (fun p hp => h36 p (List.mem_cons_of_mem _ hp))
      (fun p hp => ht p (List.mem_cons_of_mem _ hp))

theorem readLoop_fill (dl : ℚ) (ss : List (ℚ × Nat)) :
    ∀ (buf : List Nat) (rest : List (ℚ × Nat)),
      buf ≠ [] → hasCrLf (buf ++ ss.map Prod.snd) = false →
      (∀ p ∈ ss, p.1 < dl) →
      readLoop dl buf (ss ++ rest) = readLoop dl (buf ++ ss.map Prod.snd) rest := by
  induction ss with
  | nil => intro buf rest _ _ _; simp
  | cons s ss ih =>
    intro buf rest hb hcr ht
    obtain ⟨t, c⟩ := s
    rw [List.cons_append, readLoop_cons]
    rw [if_pos (ht (t, c) (List.mem_cons_self _ _))]
    rw [if_neg (fun h => hb h.1)]
    have hcr' : hasCrLf (buf ++ c :: ss.map Prod.snd) = false := by
      simpa using hcr
    rw [if_neg (lastTwo_within buf hb c (ss.map Prod.snd) hcr')]
    have step := ih (buf ++ [c]) rest (by simp)
      (by simpa [List.append_assoc] using hcr')
      (fun p hp => ht p (List.mem_cons_of_mem _ hp))
    rw [step]
    simp [List.append_assoc]

theorem pyStrip_frame (bytes : List Nat) :
    pyStrip (36 :: (bytes ++ [13, 10])) = rstripWs (36 :: bytes) := by
  unfold pyStrip rstripWs
  have h1 : List.dropWhile isPyWs (36 :: (bytes ++ [13, 10])) =
      36 :: (bytes ++ [13, 10]) := by
    rw [List.dropWhile_cons]
    simp [isPyWs]
  rw [h1]
  have h2 : (36 :: (bytes ++ [13, 10])).reverse = 10 :: 13 :: (36 :: bytes).reverse := by
    simp
  rw [h2]
  have h3 : List.dropWhile isPyWs (10 :: 13 :: (36 :: bytes).reverse) =
      List.dropWhile isPyWs ((36 :: bytes).reverse) := by
    rw [List.dropWhile_cons, List.dropWhile_cons]
    simp [isPyWs]
  rw [h3]

/-- C4 as amended: for a stream of garbage bytes none of which is the
dollar byte, then a dollar byte, then sentence bytes containing no
adjacent CR LF pair, then CR LF, all arriving before the deadline,
read_sentence discards the garbage and returns the decoded text from the
dollar byte through the byte preceding the terminating CR LF, with the
trailing CR LF together with any further trailing Python whitespace
stripped and every embedded bare line feed removed. -/
theorem c4_resync (timeout startTime t0 t1 t2 : ℚ) (gs ss : List (ℚ × Nat))
    (hg36 : ∀ p ∈ gs, p.2 ≠ 36)
    (hgt : ∀ p ∈ gs, p.1 < timeout + startTime)
    (ht0 : t0 < timeout + startTime)
    (hst : ∀ p ∈ ss, p.1 < timeout + startTime)
    (hsb : ∀ p ∈ ss, p.2 < 128)
    (ht1 : t1 < timeout + startTime) (ht2 : t2 < timeout + startTime)
    (hcr : hasCrLf (ss.map Prod.snd) = false) :
    read_sentence timeout startTime
        (gs ++ (t0, 36) :: (ss ++ [(t1, 13), (t2, 10)])) =
      ReadOutcome.line (listToString (removeNl (rstripWs (36 :: ss.map Prod.snd)))) := by
  unfold read_sentence
  rw [readLoop_skip (timeout + startTime) gs _ hg36 hgt]
  rw [readLoop_cons]
  rw [if_pos ht0]
  rw [if_neg (fun h => h.2 rfl)]
  simp only [List.nil_append]
  rw [if_neg (by decide : ¬(lastTwo [36] = [13, 10]))]
  have hcr36 : hasCrLf ([36] ++ ss.map Prod.snd) = false := by
    simp only [List.cons_append, List.nil_append]
    rw [hasCrLf_cons_of_ne 36 _ (by decide)]
    exact hcr
  rw [readLoop_fill (timeout + startTime) ss [36] [(t1, 13), (t2, 10)]
    (by simp) hcr36 hst]
  rw [readLoop_cons]
  rw [if_pos ht1]
  have hbufne : ([36] ++ ss.map Prod.snd : List Nat) ≠ [] := by simp
  rw [if_neg (fun h => hbufne h.1)]
  rw [if_neg (lastTwo_concat_ne ([36] ++ ss.map Prod.snd) hbufne 13 (by decide))]
  rw [readLoop_cons]
  rw [if_pos ht2]
  have hbufne2 : (([36] ++ ss.map Prod.snd) ++ [13] : List Nat) ≠ [] := by simp
  rw [if_neg (fun h => hbufne2 h.1)]
  have e1 : ((([36] ++ ss.map Prod.snd) ++ [13]) ++ [10] : List Nat) =
      (36 :: ss.map Prod.snd) ++ [13, 10] := by simp
  rw [e1]
  rw [if_pos (lastTwo_concat_pair (36 :: ss.map Prod.snd) 13 10)]
  unfold pyDecode
  have e2 : ((36 :: ss.map Prod.snd) ++ [13, 10] : List Nat) =
      36 :: (ss.map Prod.snd ++ [13, 10]) := by simp
  rw [e2, pyStrip_frame]

/-- C4 counterexample: a sentence whose final byte is a space (here the
bytes of the text dollar-A-B-space) is returned without that space: the
strip call removes trailing whitespace beyond the CR LF terminator, so
read_sentence does not return the decoded text from the dollar byte
through the byte preceding CR LF with only line feeds removed. -/
theorem c4_cex :
    read_sentence 10 0 [(0, 36), (1, 65), (2, 66), (3, 32), (4, 13), (5, 10)] =
      ReadOutcome.line (listToString [36, 65, 66]) ∧
    listToString (removeNl [36, 65, 66, 32]) = listToString [36, 65, 66, 32] ∧
    listToString [36, 65, 66] ≠ listToString [36, 65, 66, 32] := by
  have h10 : ((10 : ℚ) + 0) = 10 := by simp
  unfold read_sentence
  rw [h10]
  decide

theorem c4_witness :
    ((∀ p ∈ ([((0 : ℚ), (70 : Nat))] : List (ℚ × Nat)), p.2 ≠ 36) ∧
     (∀ p ∈ ([((0 : ℚ), (70 : Nat))] : List (ℚ × Nat)), p.1 < 10 + 0) ∧
     ((1 : ℚ) < 10 + 0) ∧
     (∀ p ∈ ([((2 : ℚ), (71 : Nat)), ((3 : ℚ), (80 : Nat))] : List (ℚ × Nat)),
        p.1 < 10 + 0) ∧
     (∀ p ∈ ([((2 : ℚ), (71 : Nat)), ((3 : ℚ), (80 : Nat))] : List (ℚ × Nat)),
        p.2 < 128) ∧
     ((4 : ℚ) < 10 + 0) ∧ ((5 : ℚ) < 10 + 0) ∧
     hasCrLf (([((2 : ℚ), (71 : Nat)), ((3 : ℚ), (80 : Nat))] :
        List (ℚ × Nat)).map Prod.snd) = false) ∧
    read_sentence 10 0
        (([((0 : ℚ), (70 : Nat))] : List (ℚ × Nat)) ++ ((1 : ℚ), 36) ::
          (([((2 : ℚ), (71 : Nat)), ((3 : ℚ), (80 : Nat))] : List (ℚ × Nat)) ++
            [((4 : ℚ), 13), ((5 : ℚ), 10)])) =
      ReadOutcome.line (listToString (removeNl (rstripWs
        (36 :: ([((2 : ℚ), (71 : Nat)), ((3 : ℚ), (80 : Nat))] :
          List (ℚ × Nat)).map Prod.snd)))) :=
  ⟨⟨by decide, by simp, by simp, by simp; decide, by decide, by simp; decide,
    by simp; decide, by decide⟩,
   c4_resync 10 0 1 4 5 [((0 : ℚ), 70)] [((2 : ℚ), 71), ((3 : ℚ), 80)]
     (by decide) (by simp) (by simp) (by simp; decide) (by decide)
     (by simp; decide) (by simp; decide) (by decide)⟩

theorem dispatch_success_inv (avail : Bool) (w : String) (st : FixState)
    (raw : String) (p : Parsed) (b : Bool) (st2 : FixState)
    (h : dispatch avail w st raw p = StepResult.success b st2) :
    b = true ∧ canSucceed avail w p = true := by
  cases p with
  | gga d =>
    simp only [dispatch] at h
    split at h
    next hw =>
      refine ⟨?_, by simp [canSucceed, hw]⟩
      injection h with h1 _
      exact h1.symm
    next hw => exact absurd h (by simp)
  | gll => exact absurd h (by simp [dispatch])
  | gsa d =>
    simp only [dispatch] at h
    split at h
    next hw =>
      refine ⟨?_, by simp [canSucceed, hw]⟩
      injection h with h1 _
      exact h1.symm
    next hw => exact absurd h (by simp)
  | rmc s =>
    simp only [dispatch] at h
    split at h
    next hw =>
      refine ⟨?_, by simp [canSucceed, hw]⟩
      injection h with h1 _
      exact h1.symm
    next hw => exact absurd h (by simp)
  | vtg =>
    simp only [dispatch] at h
    split at h
    next hw =>
      refine ⟨?_, by simp [canSucceed, hw]⟩
      injection h with h1 _
      exact h1.symm
    next hw => exact absurd h (by simp)
  | gsv =>
    simp only [dispatch] at h
    split at h
    next hw =>
      refine ⟨?_, by simp [canSucceed, hw]⟩
      injection h with h1 _
      exact h1.symm
    next hw => exact absurd h (by simp)
  | proprietary =>
    refine ⟨?_, rfl⟩
    simp only [dispatch] at h
    injection h with h1 _
    exact h1.symm
  | other ty =>
    simp only [dispatch, fallback] at h
    cases avail with
    | false => simp [mtkTypesLookup] at h
    | true =>
      simp only [mtkTypesLookup] at h
      split at h
      next hm =>
        refine ⟨?_, by simp [canSucceed, hm]⟩
        injection h with h1 _
        exact h1.symm
      next hm => exact absurd h (by simp)

theorem updateLoop_success_true (avail : Bool) (parse : String → Option Parsed)
    (w : String) (deadline : ℚ) (iters : List Iter) :
    ∀ (st : FixState) (b : Bool) (stf : FixState),
      updateLoop avail parse w deadline st iters = UpdateOutcome.success b stf →
      b = true := by
  induction iters with
  | nil => intro st b stf h; simp [updateLoop] at h
  | cons it rest ih =>
    intro st b stf h
    by_cases hlt : it.now < deadline
    · cases hread : it.read with
      | none =>
        simp only [updateLoop, hread, if_pos hlt] at h
        exact ih st b stf h
      | some line =>
        cases hparse : parse line with
        | none =>
          simp only [updateLoop, hread, hparse, if_pos hlt] at h
          exact ih st b stf h
        | some p =>
          cases hdisp : dispatch avail w st line p with
          | success b0 st0 =>
            simp only [updateLoop, hread, hparse, hdisp, if_pos hlt] at h
            injection h with h1 _
            rw [← h1]
            exact (dispatch_success_inv avail w st line p b0 st0 hdisp).1
          | more st0 =>
            simp only [updateLoop, hread, hparse, hdisp, if_pos hlt] at h
            exact ih st0 b stf h
          | unsupported ty raw st0 =>
            simp only [updateLoop, hread, hparse, hdisp, if_pos hlt] at h
            simp at h
    · simp only [updateLoop, if_neg hlt] at h
      simp at h

theorem updateLoop_no_success (avail : Bool) (parse : String → Option Parsed)
    (w : String) (deadline : ℚ) (iters : List Iter) :
    ∀ (st : FixState),
      (∀ it ∈ iters, ∀ line p, it.read = some line → parse line = some p →
        canSucceed avail w p = false) →
      ∀ b stf, updateLoop avail parse w deadline st iters ≠ UpdateOutcome.success b stf := by
  induction iters with
  | nil => intro st _ b stf h; simp [updateLoop] at h
  | cons it rest ih =>
    intro st hno b stf h
    have hno' : ∀ it2 ∈ rest, ∀ line p, it2.read = some line → parse line = some p →
        canSucceed avail w p = false :=
      fun it2 h2 => hno it2 (List.mem_cons_of_mem _ h2)
    by_cases hlt : it.now < deadline
    · cases hread : it.read with
      | none =>
        simp only [updateLoop, hread, if_pos hlt] at h
        exact ih st hno' b stf h
      | some line =>
        cases hparse : parse line with
        | none =>
          simp only [updateLoop, hread, hparse, if_pos hlt] at h
          exact ih st hno' b stf h
        | some p =>
          cases hdisp : dispatch avail w st line p with
          | success b0 st0 =>
            have hfalse := hno it (List.mem_cons_self _ _) line p hread hparse
            have htrue := (dispatch_success_inv avail w st line p b0 st0 hdisp).2
            rw [hfalse] at htrue
            exact Bool.noConfusion htrue
          | more st0 =>
            simp only [updateLoop, hread, hparse, hdisp, if_pos hlt] at h
            exact ih st0 hno' b stf h
          | unsupported ty raw st0 =>
            simp only [updateLoop, hread, hparse, hdisp, if_pos hlt] at h
            simp at h
    · simp only [updateLoop, if_neg hlt] at h
      simp at h

theorem updateLoop_timeout_ge (avail : Bool) (parse : String → Option Parsed)
    (w : String) (deadline : ℚ) (iters : List Iter) :
    ∀ (st : FixState) (ft : ℚ) (w2 : String),
      updateLoop avail parse w deadline st iters = UpdateOutcome.timeoutErr ft w2 →
      deadline ≤ ft := by
  induction iters with
  | nil => intro st ft w2 h; simp [updateLoop] at h
  | cons it rest ih =>
    intro st ft w2 h
    by_cases hlt : it.now < deadline
    · cases hread : it.read with
      | none =>
        simp only [updateLoop, hread, if_pos hlt] at h
        exact ih st ft w2 h
      | some line =>
        cases hparse : parse line with
        | none =>
          simp only [updateLoop, hread, hparse, if_pos hlt] at h
          exact ih st ft w2 h
        | some p =>
          cases hdisp : dispatch avail w st line p with
          | success b0 st0 =>
            simp only [updateLoop, hread, hparse, hdisp, if_pos hlt] at h
            simp at h
          | more st0 =>
            simp only [updateLoop, hread, hparse, hdisp, if_pos hlt] at h
            exact ih st0 ft w2 h
          | unsupported ty raw st0 =>
            simp only [updateLoop, hread, hparse, hdisp, if_pos hlt] at h
            simp at h
    · simp only [updateLoop, if_neg hlt] at h
      injection h with h1 _
      rw [← h1]
      exact le_of_not_lt hlt

/-- C2: for a positive timeout, when no element of the read stream parses
to a sentence that can make the dispatch succeed for the awaited kind,
update never returns success; and whenever it fails with TimeoutError, the
clock value at failure minus the clock value at entry — the elapsed wall
time — is at least the timeout. -/
theorem c2_deadline (avail : Bool) (parse : String → Option Parsed) (w : String)
    (t startTime : ℚ) (st : FixState) (iters : List Iter)
    (ht : 0 < t)
    (hno : ∀ it ∈ iters, ∀ line p, it.read = some line → parse line = some p →
      canSucceed avail w p = false) :
    (∀ b stf, update avail parse w t startTime st iters ≠ UpdateOutcome.success b stf) ∧
    (∀ ft w2, update avail parse w t startTime st iters = UpdateOutcome.timeoutErr ft w2 →
      t ≤ ft - startTime) := by
  constructor
  · exact fun b stf =>
      updateLoop_no_success avail parse w (t + startTime) iters st hno b stf
  · intro ft w2 h
    have hge := updateLoop_timeout_ge avail parse w (t + startTime) iters st ft w2 h
    linarith

theorem c2_witness :
    ((0 : ℚ) < 5 ∧
     (∀ it ∈ ([⟨6, none⟩] : List Iter), ∀ line p, it.read = some line →
        parseTable line = some p → canSucceed false "GGA" p = false)) ∧
    ((∀ b stf, update false parseTable "GGA" 5 0 initFix [⟨6, none⟩] ≠
        UpdateOutcome.success b stf) ∧
     (∀ ft w2, update false parseTable "GGA" 5 0 initFix [⟨6, none⟩] =
        UpdateOutcome.timeoutErr ft w2 → 5 ≤ ft - 0)) :=
  ⟨⟨by decide,
    by
      intro it hit line p hr hp
      rw [List.mem_singleton] at hit
      subst hit
      exact Option.noConfusion hr⟩,
   c2_deadline false parseTable "GGA" 5 0 initFix [⟨6, none⟩] (by decide)
     (by
       intro it hit line p hr hp
       rw [List.mem_singleton] at hit
       subst hit
       exact Option.noConfusion hr)⟩

/-- C5 counterexample: a GGA record whose quality field is present with
value zero takes the full-update branch of update, so the satellite count
is copied from the record (five here, not zero) and the timestamp is
overwritten; the zeroing branch runs only when the quality field is
absent. -/
theorem c5_cex :
    ggaQualZero.gps_qual = some 0 ∧
    (dispatchState sampleFix (Parsed.gga ggaQualZero)).num_sats = some 5 ∧
    (dispatchState sampleFix (Parsed.gga ggaQualZero)).num_sats ≠ some 0 ∧
    (dispatchState sampleFix (Parsed.gga ggaQualZero)).timestamp ≠ sampleFix.timestamp := by
  decide

/-- C5 as amended: folding a GGA sentence whose fix quality is absent (the
no-fix case selected by the is-None test in update) sets num_sats to zero
and gps_qual to zero and leaves every other fix-state field — pdop, hdop
and vdop in particular — unchanged. -/
theorem c5_gga_nofix (avail : Bool) (w : String) (st : FixState) (raw : String)
    (d : GGAData) (h : d.gps_qual = none) :
    dispatchState st (Parsed.gga d) =
      { st with num_sats := some 0, gps_qual := some 0 } ∧
    stepState (dispatch avail w st raw (Parsed.gga d)) =
      { st with num_sats := some 0, gps_qual := some 0 } ∧
    (dispatchState st (Parsed.gga d)).pdop = st.pdop ∧
    (dispatchState st (Parsed.gga d)).hdop = st.hdop ∧
    (dispatchState st (Parsed.gga d)).vdop = st.vdop := by
  have e : dispatchState st (Parsed.gga d) =
      { st with num_sats := some 0, gps_qual := some 0 } := by
    simp [dispatchState, h]
  refine ⟨e, ?_, by rw [e], by rw [e], by rw [e]⟩
  by_cases hw : w = "GGA" <;> simp [dispatch, stepState, hw, e]

theorem c5_witness :
    ggaNoFix.gps_qual = none ∧
    (dispatchState initFix (Parsed.gga ggaNoFix) =
       { initFix with num_sats := some 0, gps_qual := some 0 } ∧
     stepState (dispatch false "GGA" initFix "r" (Parsed.gga ggaNoFix)) =
       { initFix with num_sats := some 0, gps_qual := some 0 } ∧
     (dispatchState initFix (Parsed.gga ggaNoFix)).pdop = initFix.pdop ∧
     (dispatchState initFix (Parsed.gga ggaNoFix)).hdop = initFix.hdop ∧
     (dispatchState initFix (Parsed.gga ggaNoFix)).vdop = initFix.vdop) :=
  ⟨rfl, c5_gga_nofix false "GGA" initFix "r" ggaNoFix rfl⟩

/-- C6: folding a GSA sentence sets exactly the fields mode_fix_type,
pdop, hdop and vdop from the parsed record and leaves every other
fix-state field — latitude, longitude and num_sats in particular —
unchanged, and the dispatch step carries exactly that state whether or not
it satisfies wait_for. -/
theorem c6_gsa_frame (avail : Bool) (w : String) (st : FixState) (raw : String)
    (d : GSAData) :
    stepState (dispatch avail w st raw (Parsed.gsa d)) = dispatchState st (Parsed.gsa d) ∧
    (dispatchState st (Parsed.gsa d)).mode_fix_type = some d.mode_fix_type ∧
    (dispatchState st (Parsed.gsa d)).pdop = some d.pdop ∧
    (dispatchState st (Parsed.gsa d)).hdop = some d.hdop ∧
    (dispatchState st (Parsed.gsa d)).vdop = some d.vdop ∧
    (dispatchState st (Parsed.gsa d)).latitude = st.latitude ∧
    (dispatchState st (Parsed.gsa d)).longitude = st.longitude ∧
    (dispatchState st (Parsed.gsa d)).num_sats = st.num_sats ∧
    (dispatchState st (Parsed.gsa d)).timestamp = st.timestamp ∧
    (dispatchState st (Parsed.gsa d)).altitude = st.altitude ∧
    (dispatchState st (Parsed.gsa d)).gps_qual = st.gps_qual ∧
    (dispatchState st (Parsed.gsa d)).speed_over_ground = st.speed_over_ground := by
  refine ⟨?_, ?_, ?_, ?_, ?_, ?_, ?_, ?_, ?_, ?_, ?_, ?_⟩
  · by_cases hw : w = "GSA" <;> simp [dispatch, stepState, hw]
  all_goals simp [dispatchState]

/-- C7 counterexample: with wait_for GLL, a parsed GLL sentence — whose
kind matches the awaited kind — does not make update return success: the
GLL branch of update carries no wait_for comparison, so the loop keeps
going and the one-element stream ends without success. -/
theorem c7_cex :
    parseTable "GLL1" = some Parsed.gll ∧
    kindName Parsed.gll = "GLL" ∧
    update false parseTable "GLL" 5 0 initFix [⟨0, some "GLL1"⟩] =
      UpdateOutcome.exhausted initFix ∧
    update false parseTable "GLL" 5 0 initFix [⟨0, some "GLL1"⟩] ≠
      UpdateOutcome.success true (dispatchState initFix Parsed.gll) := by
  have h5 : ((5 : ℚ) + 0) = 5 := by simp
  unfold update
  rw [h5]
  decide

/-- C7 as amended: as soon as a parsed sentence's kind is one of the five
kinds whose branch of update carries a wait_for comparison (GGA, GSA,
RMC, VTG, GSV) and that kind equals the caller's wait_for, update returns
success immediately — consuming no further reads, and even when the
sentence reported no fix — after folding that sentence into the fix
state. -/
theorem c7_match_returns (avail : Bool) (parse : String → Option Parsed)
    (w : String) (t startTime : ℚ) (st : FixState) (it : Iter)
    (rest : List Iter) (line : String) (p : Parsed)
    (hlt : it.now < t + startTime) (hr : it.read = some line)
    (hp : parse line = some p) (hk : matchKind p = some w) :
    update avail parse w t startTime st (it :: rest) =
      UpdateOutcome.success true (dispatchState st p) := by
  have hd : dispatch avail w st line p =
      StepResult.success true (dispatchState st p) := by
    cases p <;> simp only [matchKind, Option.some.injEq, reduceCtorEq] at hk <;>
      simp [dispatch, ← hk]
  unfold update
  simp only [updateLoop, hr, hp, hd, if_pos hlt]

theorem c7_witness :
    ((⟨0, some "L0"⟩ : Iter).now < 5 + 0 ∧
     (⟨0, some "L0"⟩ : Iter).read = some "L0" ∧
     parseTable "L0" = some (Parsed.gga ggaNoFix) ∧
     matchKind (Parsed.gga ggaNoFix) = some "GGA") ∧
    update false parseTable "GGA" 5 0 initFix [⟨0, some "L0"⟩] =
      UpdateOutcome.success true (dispatchState initFix (Parsed.gga ggaNoFix)) :=
  ⟨⟨by simp, rfl, by decide, rfl⟩,
   c7_match_returns false parseTable "GGA" 5 0 initFix ⟨0, some "L0"⟩ [] "L0"
     (Parsed.gga ggaNoFix) (by simp) rfl (by decide) rfl⟩

/-- C8: a well-formed sentence whose type tag is recognized by neither the
primary dispatch nor the MTK fallback makes update fail at once with the
Unsupported error naming the type tag and the raw text, without consuming
the rest of the stream; and on parser builds without MTK support the
attribute lookup fails and that failure is swallowed into the same
Unsupported outcome instead of crashing. -/
theorem c8_unsupported (avail : Bool) (parse : String → Option Parsed)
    (w : String) (t startTime : ℚ) (st : FixState) (it : Iter)
    (rest : List Iter) (line ty : String)
    (hlt : it.now < t + startTime) (hr : it.read = some line)
    (hp : parse line = some (Parsed.other ty))
    (hrec : avail = false ∨ ty ∉ ["MTK011", "MTK010"]) :
    update avail parse w t startTime st (it :: rest) =
      UpdateOutcome.unsupportedErr ty line st ∧
    mtkTypesLookup false = Except.error "AttributeError" ∧
    (∀ ty2 raw2 st2, fallback false ty2 raw2 st2 = StepResult.unsupported ty2 raw2 st2) := by
  refine ⟨?_, rfl, fun ty2 raw2 st2 => rfl⟩
  have hf : fallback avail ty line st = StepResult.unsupported ty line st := by
    rcases hrec with h | h
    · subst h; rfl
    · cases avail
      · rfl
      · simp [fallback, mtkTypesLookup, h]
  have hd : dispatch avail w st line (Parsed.other ty) =
      StepResult.unsupported ty line st := hf
  unfold update
  simp only [updateLoop, hr, hp, hd, if_pos hlt]

theorem c8_witness :
    ((⟨0, some "Z1"⟩ : Iter).now < 5 + 0 ∧
     parseTable "Z1" = some (Parsed.other "ZDA") ∧
     (false = false ∨ "ZDA" ∉ ["MTK011", "MTK010"])) ∧
    (update false parseTable "GGA" 5 0 initFix [⟨0, some "Z1"⟩, ⟨1, some "L1"⟩] =
       UpdateOutcome.unsupportedErr "ZDA" "Z1" initFix ∧
     mtkTypesLookup false = Except.error "AttributeError" ∧
     (∀ ty2 raw2 st2, fallback false ty2 raw2 st2 = StepResult.unsupported ty2 raw2 st2)) :=
  ⟨⟨by simp, by decide, Or.inl rfl⟩,
   c8_unsupported false parseTable "GGA" 5 0 initFix ⟨0, some "Z1"⟩
     [⟨1, some "L1"⟩] "Z1" "ZDA" (by simp) rfl (by decide) (Or.inl rfl)⟩

/-- C9: set_pps rejects a non-PPS mode argument with the contract error
before any bus write takes place, and for every PPS mode and every pulse
width — no range validation — builds the PMTK285 payload from the mode
integer and the pulse width and delegates to send_command with the
checksum enabled; the ALWAYS mode with width 100 yields the pinned sample
payload. -/
theorem c9_set_pps :
    (∀ s pw, set_pps (PyVal.other s) pw =
      SetPpsResult.rejected "Mode must be of type PPS") ∧
    (∀ m pw, set_pps (PyVal.pps m) pw =
      SetPpsResult.sent (send_command
        (encodeAscii ("PMTK285," ++ toString (PPS.value m) ++ "," ++ toString pw))
        true)) ∧
    (∀ m pw, set_pps (PyVal.pps m) pw ≠
      SetPpsResult.rejected "Mode must be of type PPS") ∧
    (PPS.value PPS.DISABLE = 0 ∧ PPS.value PPS.AFTER_FIRST_FIX = 1 ∧
     PPS.value PPS.ONLY_3D = 2 ∧ PPS.value PPS.ONLY_2D_3D = 3 ∧
     PPS.value PPS.ALWAYS = 4) ∧
    set_pps (PyVal.pps PPS.ALWAYS) 100 =
      SetPpsResult.sent (send_command (encodeAscii "PMTK285,4,100") true) := by
  refine ⟨fun s pw => rfl, fun m pw => rfl, fun m pw h => SetPpsResult.noConfusion h,
    ⟨rfl, rfl, rfl, rfl, rfl⟩, ?_⟩
  decide

/-- C10: whenever update returns normally its boolean result is True:
every success outcome of the loop carries true, for any parser, stream,
state and arguments; unsuccessful outcomes are the TimeoutError and
Unsupported errors, never a normal False return. -/
theorem c10_returns_true (avail : Bool) (parse : String → Option Parsed)
    (w : String) (t startTime : ℚ) (st : FixState) (iters : List Iter)
    (b : Bool) (stf : FixState)
    (h : update avail parse w t startTime st iters = UpdateOutcome.success b stf) :
    b = true :=
  updateLoop_success_true avail parse w (t + startTime) iters st b stf h

theorem c10_witness :
    update false parseTable "GGA" 5 0 initFix [⟨0, some "P1"⟩] =
      UpdateOutcome.success true initFix ∧ true = true := by
  have h : update false parseTable "GGA" 5 0 initFix [⟨0, some "P1"⟩] =
      UpdateOutcome.success true initFix := by
    have h5 : ((5 : ℚ) + 0) = 5 := by simp
    unfold update
    rw [h5]
    decide
  exact ⟨h, c10_returns_true false parseTable "GGA" 5 0 initFix [⟨0, some "P1"⟩]
    true initFix h⟩
